import Mathlib

/-!
# Option reader of `protobuf-ast-helpers` (package `options`)

A shallow embedding of `src/options/options.go`.

* Go `interface{}` values are the type `Value`: the nil interface, a pointer to one of the five
  scalar kinds the helper copies (a nil pointer is `none`, otherwise the pointee is carried by
  value), a plain `string` / `bool`, or a value of any other dynamic type.
* A call either returns or panics (`Outcome`).
* The `protoreflect` library is not part of the package: its operations are the fields of
  `Protoreflect`, over abstract types for registries, files, raw options and dynamic messages.
* The reader is passed explicitly: every operation returns the reader as it is after the call.
-/

namespace Options

/-! ## Go values, errors, outcomes -/

/-- The dynamic type of a non-nil `interface{}` value. -/
inductive GoType where
  | ptrString
  | ptrBool
  | ptrInt16
  | ptrInt32
  | ptrInt64
  | string
  | bool
  | other (name : String)
  deriving DecidableEq, Repr

/-- A Go `interface{}` value. For the pointer kinds `none` is a nil pointer of that type and
`some v` a pointer whose target currently holds `v`. -/
inductive Value where
  | nil
  | ptrString (p : Option String)
  | ptrBool (p : Option Bool)
  | ptrInt16 (p : Option Int)
  | ptrInt32 (p : Option Int)
  | ptrInt64 (p : Option Int)
  | string (s : String)
  | bool (b : Bool)
  | other (typeName : String)
  deriving DecidableEq, Repr

/-- The dynamic type of a value; the nil interface has none. -/
def Value.goType : Value → Option GoType
  | .nil => none
  | .ptrString _ => some .ptrString
  | .ptrBool _ => some .ptrBool
  | .ptrInt16 _ => some .ptrInt16
  | .ptrInt32 _ => some .ptrInt32
  | .ptrInt64 _ => some .ptrInt64
  | .string _ => some .string
  | .bool _ => some .bool
  | .other n => some (.other n)

/-- What `%T` prints for a type. -/
def GoType.name : GoType → String
  | .ptrString => "*string"
  | .ptrBool => "*bool"
  | .ptrInt16 => "*int16"
  | .ptrInt32 => "*int32"
  | .ptrInt64 => "*int64"
  | .string => "string"
  | .bool => "bool"
  | .other n => n

/-- What `%T` prints for a value. -/
def Value.typeName (v : Value) : String :=
  match v.goType with
  | none => "<nil>"
  | some t => t.name

/-- The five destination types `readValue` has a case for. -/
def GoType.supported : GoType → Bool
  | .ptrString | .ptrBool | .ptrInt16 | .ptrInt32 | .ptrInt64 => true
  | _ => false

/-- Whether a destination is a pointer of one of the five supported kinds. -/
def Value.supportedDest (out : Value) : Bool :=
  match out.goType with
  | some t => t.supported
  | none => false

/-- A nil pointer of one of the five supported kinds. -/
def Value.isNilPtr : Value → Bool
  | .ptrString none | .ptrBool none | .ptrInt16 none | .ptrInt32 none | .ptrInt64 none => true
  | _ => false

/-- Go `error` values: one made by `errs.Newf`, one coming out of the library, or a library
error turned into a detailed error by `errs.Wrap`. The first and the last are `*errs.Error`. -/
inductive GoError where
  | newf (msg : String)
  | lib (msg : String)
  | wrap (cause : GoError)
  deriving DecidableEq, Repr

/-- Go `errs.Wrap`, applied to a non-nil error: an error that is not yet an `*errs.Error` gets
wrapped, one that already is comes back unchanged. -/
def Wrap : GoError → GoError
  | .lib msg => .wrap (.lib msg)
  | err => err

/-- Go `errs.Newf`, after formatting. -/
def Newf (msg : String) : GoError := .newf msg

/-- The message an error carries. -/
def GoError.message : GoError → String
  | .newf m => m
  | .lib m => m
  | .wrap c => c.message

/-- A call returns a result or panics. -/
inductive Outcome (α : Type) where
  | ret (a : α)
  | panic (reason : String)
  deriving DecidableEq, Repr

/-- The run-time panic of a store or load through a nil pointer. -/
def nilDeref : String := "invalid memory address or nil pointer dereference"

/-! ## readValue -/

/-- The format `"value was %T, not %T"` applied to two values. -/
def mismatchMsg (a b : Value) : String :=
  "value was " ++ a.typeName ++ ", not " ++ b.typeName

/-- The format of the default case applied to the destination. -/
def unsupportedMsg (target : Value) : String :=
  "helper could not read " ++ target.typeName ++ ", please use `GetOption...` directly"

/-- Method `OptionReader.readValue(in, out)`: the returned pair is the error and the destination
as it is after the call. In each case `data` is the result of the type assertion on `in`; when the
assertion fails `data` is the nil pointer of the asserted type, which is what the error message
formats. A store through a nil `target` panics. -/
def readValue (inp out : Value) : Outcome (Option GoError × Value) :=
  if inp = .nil then .ret (none, out)
  else if out = .nil then .ret (none, out)
  else
    match out with
    | .ptrString target =>
      match inp with
      | .ptrString data =>
        match data with
        | some d =>
          match target with
          | some _ => .ret (none, .ptrString (some d))
          | none => .panic nilDeref
        | none => .ret (none, out)
      | _ => .ret (some (Newf (mismatchMsg out (.ptrString none))), out)
    | .ptrBool target =>
      match inp with
      | .ptrBool data =>
        match data with
        | some d =>
          match target with
          | some _ => .ret (none, .ptrBool (some d))
          | none => .panic nilDeref
        | none => .ret (none, out)
      | _ => .ret (some (Newf (mismatchMsg out (.ptrBool none))), out)
    | .ptrInt16 target =>
      match inp with
      | .ptrInt16 data =>
        match data with
        | some d =>
          match target with
          | some _ => .ret (none, .ptrInt16 (some d))
          | none => .panic nilDeref
        | none => .ret (none, out)
      | _ => .ret (some (Newf (mismatchMsg out (.ptrInt16 none))), out)
    | .ptrInt32 target =>
      match inp with
      | .ptrInt32 data =>
        match data with
        | some d =>
          match target with
          | some _ => .ret (none, .ptrInt32 (some d))
          | none => .panic nilDeref
        | none => .ret (none, out)
      | _ => .ret (some (Newf (mismatchMsg out (.ptrInt32 none))), out)
    | .ptrInt64 target =>
      match inp with
      | .ptrInt64 data =>
        match data with
        | some d =>
          match target with
          | some _ => .ret (none, .ptrInt64 (some d))
          | none => .panic nilDeref
        | none => .ret (none, out)
      | _ => .ret (some (Newf (mismatchMsg out (.ptrInt64 none))), out)
    | target => .ret (some (Newf (unsupportedMsg target)), out)


/-! ## The reader and the library it calls -/

/-- A `desc.Descriptor` as far as the package uses it: the two methods it calls. A nil
descriptor is `none : Option (Descriptor File Opts)`; `GetOptions` is `none` when the options
sub-message is absent. -/
structure Descriptor (File Opts : Type) where
  GetFile : File
  GetOptions : Option Opts

/-- The operations of `protoreflect` the package calls. `Reg` is the state of an extension
registry, `Msg` a dynamic message. A Go result pair `(x, err)` is a Lean pair. The two field
lookups are methods with a pointer receiver: they are also entered with a nil receiver (`none`),
and may panic. The lookups and the conversion only read the registry. -/
structure Protoreflect (Reg File Opts Msg : Type) where
  NewExtensionRegistryWithDefaults : Reg
  AddExtensionsFromFileRecursively : Reg → File → Reg
  AsDynamicMessageWithExtensionRegistry : Opts → Reg → Option Msg × Option GoError
  TryGetFieldByNumber : Option Msg → Int → Outcome (Value × Option GoError)
  TryGetFieldByName : Option Msg → String → Outcome (Value × Option GoError)

/-- The struct `OptionReader`. `Registry` is the state of the registry the reader points to (the
pointer itself is never reassigned). `registered` is a ghost field: the files passed to
`AddExtensionsFromFileRecursively` by this reader, in call order. -/
structure OptionReader (Reg File : Type) where
  init : Bool
  Registry : Reg
  registered : List File

variable {Reg File Opts Msg : Type}

/-- Function `NewOptionReader(registry)`: a nil argument (`none`) is replaced by a default
registry. -/
def NewOptionReader (L : Protoreflect Reg File Opts Msg) (registry : Option Reg) :
    OptionReader Reg File :=
  let registry := match registry with
    | none => L.NewExtensionRegistryWithDefaults
    | some r => r
  ⟨false, registry, []⟩

/-- Method `OptionReader.getOptions(node)`: the result pair `(msg, err)` and the reader
afterwards. -/
def getOptions (L : Protoreflect Reg File Opts Msg) (o : OptionReader Reg File)
    (node : Option (Descriptor File Opts)) :
    (Option Msg × Option GoError) × OptionReader Reg File :=
  match node with
  | none => ((none, none), o)
  | some n =>
    let o1 : OptionReader Reg File :=
      if !o.init then
        ⟨true, L.AddExtensionsFromFileRecursively o.Registry n.GetFile,
          o.registered ++ [n.GetFile]⟩
      else o
    match n.GetOptions with
    | none => ((none, none), o1)
    | some opts =>
      match L.AsDynamicMessageWithExtensionRegistry opts o1.Registry with
      | (_, some err) => ((none, some (Wrap err)), o1)
      | (msg, none) => ((msg, none), o1)

/-- Method `OptionReader.GetOptionByID(node, tagID)`: the result pair `(val, err)` or the
panic of the lookup, and the reader afterwards. The lookup is called on whatever message
`getOptions` returned without error, a nil message included. -/
def GetOptionByID (L : Protoreflect Reg File Opts Msg) (o : OptionReader Reg File)
    (node : Option (Descriptor File Opts)) (tagID : Int) :
    Outcome (Value × Option GoError) × OptionReader Reg File :=
  match getOptions L o node with
  | ((_, some err), o1) => (.ret (.nil, some (Wrap err)), o1)
  | ((opts, none), o1) =>
    match L.TryGetFieldByNumber opts tagID with
    | .panic r => (.panic r, o1)
    | .ret (_, some err) => (.ret (.nil, some (Wrap err)), o1)
    | .ret (val, none) => (.ret (val, none), o1)

/-- Method `OptionReader.GetOptionByName(node, tagName)`, as `GetOptionByID` with the lookup by
name. -/
def GetOptionByName (L : Protoreflect Reg File Opts Msg) (o : OptionReader Reg File)
    (node : Option (Descriptor File Opts)) (tagName : String) :
    Outcome (Value × Option GoError) × OptionReader Reg File :=
  match getOptions L o node with
  | ((_, some err), o1) => (.ret (.nil, some (Wrap err)), o1)
  | ((opts, none), o1) =>
    match L.TryGetFieldByName opts tagName with
    | .panic r => (.panic r, o1)
    | .ret (_, some err) => (.ret (.nil, some (Wrap err)), o1)
    | .ret (val, none) => (.ret (val, none), o1)

/-- Method `OptionReader.ReadOptionByID(node, tagID, out)`: the error and the destination after the
call, and the reader afterwards. -/
def ReadOptionByID (L : Protoreflect Reg File Opts Msg) (o : OptionReader Reg File)
    (node : Option (Descriptor File Opts)) (tagID : Int) (out : Value) :
    Outcome (Option GoError × Value) × OptionReader Reg File :=
  match GetOptionByID L o node tagID with
  | (.panic r, o1) => (.panic r, o1)
  | (.ret (_, some err), o1) => (.ret (some (Wrap err), out), o1)
  | (.ret (val, none), o1) => (readValue val out, o1)

/-- Method `OptionReader.ReadOptionByName(node, tagName, out)`, as `ReadOptionByID` with the
lookup by name. -/
def ReadOptionByName (L : Protoreflect Reg File Opts Msg) (o : OptionReader Reg File)
    (node : Option (Descriptor File Opts)) (tagName : String) (out : Value) :
    Outcome (Option GoError × Value) × OptionReader Reg File :=
  match GetOptionByName L o node tagName with
  | (.panic r, o1) => (.panic r, o1)
  | (.ret (_, some err), o1) => (.ret (some (Wrap err), out), o1)
  | (.ret (val, none), o1) => (readValue val out, o1)

/-! ## Sequences of public operations -/

/-- One call of a public operation, with its arguments. -/
inductive Op (File Opts : Type) where
  | getByID (node : Option (Descriptor File Opts)) (tagID : Int)
  | getByName (node : Option (Descriptor File Opts)) (tagName : String)
  | readByID (node : Option (Descriptor File Opts)) (tagID : Int) (out : Value)
  | readByName (node : Option (Descriptor File Opts)) (tagName : String) (out : Value)

/-- The descriptor an operation is called with. -/
def Op.node : Op File Opts → Option (Descriptor File Opts)
  | .getByID n _ | .getByName n _ | .readByID n _ _ | .readByName n _ _ => n

/-- The reader after one operation. -/
def step (L : Protoreflect Reg File Opts Msg) (o : OptionReader Reg File) :
    Op File Opts → OptionReader Reg File
  | .getByID n t => (GetOptionByID L o n t).2
  | .getByName n t => (GetOptionByName L o n t).2
  | .readByID n t out => (ReadOptionByID L o n t out).2
  | .readByName n t out => (ReadOptionByName L o n t out).2

/-- The reader after a sequence of operations. -/
def run (L : Protoreflect Reg File Opts Msg) (o : OptionReader Reg File) :
    List (Op File Opts) → OptionReader Reg File
  | [] => o
  | op :: ops => run L (step L o op) ops

/-- The init flag after each operation of a sequence, in order. -/
def initTrace (L : Protoreflect Reg File Opts Msg) (o : OptionReader Reg File) :
    List (Op File Opts) → List Bool
  | [] => []
  | op :: ops => (step L o op).init :: initTrace L (step L o op) ops

/-- The number of changes from `false` to `true` along a sequence of flags that starts from
`prev`. -/
def risingEdges (prev : Bool) : List Bool → Nat
  | [] => 0
  | b :: bs => (if !prev && b then 1 else 0) + risingEdges b bs

/-! ## A small instance of the library, on the schema of `options_test.go` -/

/-- An extension definition: the options message it extends, its tag, its qualified name and
the value an unset field reads as. -/
structure Ext where
  extendee : String
  tag : Int
  name : String
  zero : Value
  deriving DecidableEq, Repr

/-- A parsed file: its name and the extensions declared in it and in the files it imports. -/
structure TFile where
  name : String
  extensions : List Ext
  deriving DecidableEq, Repr

/-- A raw options message, as `GetOptions()` returns it: the options type, whether the library
can convert the message to a dynamic message, and the custom fields that are set, by tag.
`convertible` is true for the options messages of parsed files; it is false for a message on
which `AsDynamicMessageWithExtensionRegistry` returns an error. -/
structure TOpts where
  extendee : String
  convertible : Bool
  fields : List (Int × Value)
  deriving DecidableEq, Repr

/-- A dynamic message: the raw options together with the registry they were converted under. -/
structure TMsg where
  opts : TOpts
  er : List Ext
  deriving DecidableEq, Repr

/-- The value of the field an extension defines, on a raw options message. -/
def TMsg.getField (m : TMsg) (e : Ext) : Value :=
  match m.opts.fields.find? (fun f => f.1 = e.tag) with
  | some f => f.2
  | none => e.zero

/-- Modelled from the spec: the `protoreflect` library (external, not under `src/`), on
registries that are lists of extension definitions. Conversion keeps a field that has no
definition in the registry as an unknown field and succeeds; it returns an error exactly on the
messages marked as not convertible. A lookup of a tag or name without definition is an error, a
defined field that is not set reads as its zero value, and a lookup entered with a nil receiver
reads a field of the receiver and panics. -/
def testLib : Protoreflect (List Ext) TFile TOpts TMsg where
  NewExtensionRegistryWithDefaults := []
  AddExtensionsFromFileRecursively := fun r fd => r ++ fd.extensions
  AsDynamicMessageWithExtensionRegistry := fun opts r =>
    if opts.convertible then (some ⟨opts, r⟩, none)
    else (none, some (.lib "cannot convert options"))
  TryGetFieldByNumber := fun m tagNumber =>
    match m with
    | none => .panic nilDeref
    | some m =>
      match m.er.find? (fun e => e.extendee = m.opts.extendee ∧ e.tag = tagNumber) with
      | none => .ret (.nil, some (.lib "unknown tag number"))
      | some e => .ret (m.getField e, none)
  TryGetFieldByName := fun m name =>
    match m with
    | none => .panic nilDeref
    | some m =>
      match m.er.find? (fun e => e.extendee = m.opts.extendee ∧ e.name = name) with
      | none => .ret (.nil, some (.lib "unknown field name"))
      | some e => .ret (m.getField e, none)

/-- The extensions of `ext.proto`. -/
def extProto : List Ext :=
  [⟨"google.protobuf.MessageOptions", 5001, "test.msg_string", .string ""⟩,
   ⟨"google.protobuf.MessageOptions", 5002, "test.msg_bool", .bool false⟩,
   ⟨"google.protobuf.FieldOptions", 5001, "test.field_string", .string ""⟩,
   ⟨"google.protobuf.FieldOptions", 5002, "test.field_bool", .bool false⟩]

/-- The file `message.proto`, which imports `ext.proto`. -/
def messageProto : TFile := ⟨"message.proto", extProto⟩

/-- The message `test.Thing` with its two options. -/
def mdesc : Descriptor TFile TOpts :=
  ⟨messageProto, some ⟨"google.protobuf.MessageOptions", true,
    [(5001, .string "dogs"), (5002, .bool true)]⟩⟩

/-- The field `test.Thing.id` with its two options. -/
def fdesc : Descriptor TFile TOpts :=
  ⟨messageProto, some ⟨"google.protobuf.FieldOptions", true,
    [(5001, .string "cats"), (5002, .bool true)]⟩⟩

/-- A descriptor of `message.proto` whose `GetOptions()` returns the nil interface. -/
def bareDesc : Descriptor TFile TOpts := ⟨messageProto, none⟩

/-- A descriptor whose options set a field no file defines. -/
def strayDesc : Descriptor TFile TOpts :=
  ⟨messageProto, some ⟨"google.protobuf.MessageOptions", true, [(7001, .string "x")]⟩⟩

/-- A descriptor whose `GetOptions()` returns a message the library cannot convert: the
conversion to a dynamic message returns an error. -/
def unconvertibleDesc : Descriptor TFile TOpts :=
  ⟨messageProto, some ⟨"google.protobuf.MessageOptions", false, []⟩⟩

/-- The reader of the test file: `NewOptionReader(nil)`. -/
def reader : OptionReader (List Ext) TFile := NewOptionReader testLib none


/-! ## Theorems: readValue -/

/-- An absent source is a no-op without error. -/
theorem readValue_nil_in (out : Value) : readValue .nil out = .ret (none, out) := by
  simp [readValue]

/-- A nil interface as destination is a no-op without error. -/
theorem readValue_nil_out (inp : Value) : readValue inp .nil = .ret (none, .nil) := by
  by_cases h : inp = .nil <;> simp [readValue, h]

/-- On a type mismatch with a supported destination the error formats the destination twice:
once as `out` and once as the zero `data` of the failed assertion, which has the destination's
type. -/
theorem readValue_mismatch (inp out : Value) (hin : inp ≠ .nil)
    (hsup : out.supportedDest = true) (hk : inp.goType ≠ out.goType) :
    readValue inp out =
      .ret (some (Newf ("value was " ++ out.typeName ++ ", not " ++ out.typeName)), out) := by
  cases out <;> simp [Value.supportedDest, Value.goType, GoType.supported] at hsup <;>
    cases inp <;>
    simp_all [readValue, Value.goType, mismatchMsg, Value.typeName, GoType.name]

/-- A non-nil source and a non-nil destination outside the five cases reach the default case. -/
theorem readValue_unsupported (inp out : Value) (hin : inp ≠ .nil) (hout : out ≠ .nil)
    (hsup : out.supportedDest = false) :
    readValue inp out = .ret (some (Newf (unsupportedMsg out)), out) := by
  cases out <;> simp [Value.supportedDest, Value.goType, GoType.supported] at hsup <;>
    simp_all [readValue]

/-- When the lookup returns a value without error, `ReadOptionByID` is `readValue` on it. -/
theorem ReadOptionByID_of_get (L : Protoreflect Reg File Opts Msg) (o : OptionReader Reg File)
    (node : Option (Descriptor File Opts)) (tagID : Int) (inp out : Value)
    (hg : (GetOptionByID L o node tagID).1 = .ret (inp, none)) :
    (ReadOptionByID L o node tagID out).1 = readValue inp out := by
  unfold ReadOptionByID
  rcases hget : GetOptionByID L o node tagID with ⟨r, o1⟩
  rw [hget] at hg
  simp only at hg
  subst hg
  rfl

/-- When the lookup returns a value without error, `ReadOptionByName` is `readValue` on it. -/
theorem ReadOptionByName_of_get (L : Protoreflect Reg File Opts Msg) (o : OptionReader Reg File)
    (node : Option (Descriptor File Opts)) (tagName : String) (inp out : Value)
    (hg : (GetOptionByName L o node tagName).1 = .ret (inp, none)) :
    (ReadOptionByName L o node tagName out).1 = readValue inp out := by
  unfold ReadOptionByName
  rcases hget : GetOptionByName L o node tagName with ⟨r, o1⟩
  rw [hget] at hg
  simp only at hg
  subst hg
  rfl

/-- C3: a non-nil source whose dynamic type is not the type of a destination pointer of a
supported kind makes `readValue` return an error with the destination as it was (a non-nil
destination pointer keeps its target, and a nil one is covered as well); so do `ReadOptionByID`
and `ReadOptionByName` when the lookup returned that source. -/
theorem readValue_mismatch_error_keeps_destination
    (L : Protoreflect Reg File Opts Msg) (o : OptionReader Reg File)
    (node : Option (Descriptor File Opts)) (tagID : Int) (tagName : String)
    (inp out : Value) (hin : inp ≠ .nil) (hsup : out.supportedDest = true)
    (hk : inp.goType ≠ out.goType) :
    (∃ e, readValue inp out = .ret (some e, out)) ∧
    ((GetOptionByID L o node tagID).1 = .ret (inp, none) →
      ∃ e, (ReadOptionByID L o node tagID out).1 = .ret (some e, out)) ∧
    ((GetOptionByName L o node tagName).1 = .ret (inp, none) →
      ∃ e, (ReadOptionByName L o node tagName out).1 = .ret (some e, out)) := by
  have h := readValue_mismatch inp out hin hsup hk
  refine ⟨⟨_, h⟩, ?_, ?_⟩
  · intro hg
    exact ⟨_, (ReadOptionByID_of_get L o node tagID inp out hg).trans h⟩
  · intro hg
    exact ⟨_, (ReadOptionByName_of_get L o node tagName inp out hg).trans h⟩

theorem readValue_mismatch_error_keeps_destination_witness :
    (∃ e, readValue (.string "dogs") (.ptrBool (some false)) =
      .ret (some e, .ptrBool (some false))) ∧
    (∃ e, (ReadOptionByID testLib reader (some mdesc) 5001 (.ptrBool (some false))).1 =
      .ret (some e, .ptrBool (some false))) ∧
    (∃ e, (ReadOptionByName testLib reader (some mdesc) "test.msg_string"
      (.ptrBool (some false))).1 = .ret (some e, .ptrBool (some false))) :=
  have h := readValue_mismatch_error_keeps_destination testLib reader (some mdesc) 5001
    "test.msg_string" (.string "dogs") (.ptrBool (some false)) (by decide) (by decide)
    (by decide)
  ⟨h.1, h.2.1 (by decide), h.2.2 (by decide)⟩

/-- C4: with a non-nil destination pointer of kind K and a source that is an optional scalar of
the same kind, `readValue` returns no error; the destination then holds the source's value when
the source is present and its own previous value when the source is a nil pointer. -/
theorem readValue_same_kind_copies :
    (∀ (data : Option String) (t : String), readValue (.ptrString data) (.ptrString (some t)) =
      .ret (none, .ptrString (some (data.getD t)))) ∧
    (∀ (data : Option Bool) (t : Bool), readValue (.ptrBool data) (.ptrBool (some t)) =
      .ret (none, .ptrBool (some (data.getD t)))) ∧
    (∀ (data : Option Int) (t : Int), readValue (.ptrInt16 data) (.ptrInt16 (some t)) =
      .ret (none, .ptrInt16 (some (data.getD t)))) ∧
    (∀ (data : Option Int) (t : Int), readValue (.ptrInt32 data) (.ptrInt32 (some t)) =
      .ret (none, .ptrInt32 (some (data.getD t)))) ∧
    (∀ (data : Option Int) (t : Int), readValue (.ptrInt64 data) (.ptrInt64 (some t)) =
      .ret (none, .ptrInt64 (some (data.getD t)))) := by
  refine ⟨?_, ?_, ?_, ?_, ?_⟩ <;> intro data t <;> cases data <;> simp [readValue]

/-- C5 as stated fails: with an absent source `readValue` returns no error for a destination of
an unsupported kind, and `ReadOptionByID` with such a destination returns the lookup error for
an unknown tag, whose message is not the unsupported-type message. -/
theorem unsupported_destination_not_always_error :
    readValue .nil (.other "*float64") = .ret (none, .other "*float64") ∧
    (GetOptionByID testLib reader (some mdesc) 7777).1 =
      .ret (.nil, some (Wrap (.lib "unknown tag number"))) ∧
    (ReadOptionByID testLib reader (some mdesc) 7777 (.other "*float64")).1 =
      .ret (some (Wrap (.lib "unknown tag number")), .other "*float64") ∧
    (Wrap (.lib "unknown tag number")).message ≠ unsupportedMsg (.other "*float64") := by
  decide

/-- An error that went through `errs.Wrap` is left as it is by a second `errs.Wrap`. -/
theorem Wrap_Wrap (err : GoError) : Wrap (Wrap err) = Wrap err := by
  cases err <;> rfl

/-- Every error `GetOptionByID` returns went through `errs.Wrap`. -/
theorem GetOptionByID_error_wrapped (L : Protoreflect Reg File Opts Msg)
    (o : OptionReader Reg File) (node : Option (Descriptor File Opts)) (tagID : Int)
    (v : Value) (err : GoError) (hg : (GetOptionByID L o node tagID).1 = .ret (v, some err)) :
    Wrap err = err := by
  unfold GetOptionByID at hg
  rcases hgo : getOptions L o node with ⟨⟨m, _ | e⟩, o1⟩ <;> rw [hgo] at hg <;>
    simp only at hg
  · rcases hl : L.TryGetFieldByNumber m tagID with ⟨w, _ | e⟩ | r <;> rw [hl] at hg <;>
      simp at hg
    rw [← hg.2, Wrap_Wrap]
  · simp at hg
    rw [← hg.2, Wrap_Wrap]

/-- When the lookup returns an error, `ReadOptionByID` returns that error and writes nothing. -/
theorem ReadOptionByID_of_get_error (L : Protoreflect Reg File Opts Msg)
    (o : OptionReader Reg File) (node : Option (Descriptor File Opts)) (tagID : Int)
    (v out : Value) (err : GoError)
    (hg : (GetOptionByID L o node tagID).1 = .ret (v, some err)) :
    (ReadOptionByID L o node tagID out).1 = .ret (some err, out) := by
  have hw := GetOptionByID_error_wrapped L o node tagID v err hg
  unfold ReadOptionByID
  rcases hget : GetOptionByID L o node tagID with ⟨r, o1⟩
  rw [hget] at hg
  simp only at hg
  subst hg
  simp only [hw]

/-- C5, amended: for a non-nil source and a non-nil destination whose type is none of the five
supported pointer types, `readValue` returns the unsupported-type error, which names the
destination's type, and writes nothing; `ReadOptionByID` returns that error whenever
`GetOptionByID` returned a non-nil value without error. With an absent source `readValue`
returns no error and writes nothing, and when `GetOptionByID` returned an error `ReadOptionByID`
returns that error and writes nothing. -/
theorem unsupported_destination_error
    (L : Protoreflect Reg File Opts Msg) (o : OptionReader Reg File)
    (node : Option (Descriptor File Opts)) (tagID : Int)
    (inp out : Value) (hin : inp ≠ .nil) (hout : out ≠ .nil)
    (hsup : out.supportedDest = false) :
    readValue inp out =
      .ret (some (Newf ("helper could not read " ++ out.typeName ++
        ", please use `GetOption...` directly")), out) ∧
    ((GetOptionByID L o node tagID).1 = .ret (inp, none) →
      (ReadOptionByID L o node tagID out).1 =
        .ret (some (Newf ("helper could not read " ++ out.typeName ++
          ", please use `GetOption...` directly")), out)) ∧
    readValue .nil out = .ret (none, out) ∧
    (∀ (v : Value) (err : GoError), (GetOptionByID L o node tagID).1 = .ret (v, some err) →
      (ReadOptionByID L o node tagID out).1 = .ret (some err, out)) := by
  have h := readValue_unsupported inp out hin hout hsup
  exact ⟨h, fun hg => (ReadOptionByID_of_get L o node tagID inp out hg).trans h,
    readValue_nil_in out,
    fun v err hg => ReadOptionByID_of_get_error L o node tagID v out err hg⟩

/-- The amended C5 on the test schema: option 5001 of `test.Thing` read into a `*float64`, and
the unknown tag 7777 read into the same destination. -/
theorem unsupported_destination_error_witness :
    (readValue (.string "dogs") (.other "*float64") =
      .ret (some (Newf "helper could not read *float64, please use `GetOption...` directly"),
        .other "*float64") ∧
    (ReadOptionByID testLib reader (some mdesc) 5001 (.other "*float64")).1 =
      .ret (some (Newf "helper could not read *float64, please use `GetOption...` directly"),
        .other "*float64") ∧
    readValue .nil (.other "*float64") = .ret (none, .other "*float64")) ∧
    (ReadOptionByID testLib reader (some mdesc) 7777 (.other "*float64")).1 =
      .ret (some (.wrap (.lib "unknown tag number")), .other "*float64") :=
  have h := unsupported_destination_error testLib reader (some mdesc) 5001
    (.string "dogs") (.other "*float64") (by decide) (by decide) (by decide)
  have h7 := unsupported_destination_error testLib reader (some mdesc) 7777
    (.string "dogs") (.other "*float64") (by decide) (by decide) (by decide)
  ⟨⟨h.1, h.2.1 (by decide), h.2.2.1⟩,
    h7.2.2.2 .nil (.wrap (.lib "unknown tag number")) (by decide)⟩

/-- C6, at the failing input: with a nil `*string` destination the guard `out == nil` does not
fire; a present `*string` source is then stored through the nil pointer, a panic, and a source
of another type gives a mismatch error. -/
theorem readValue_nil_pointer_destination :
    (Value.ptrString none).isNilPtr = true ∧
    readValue (.ptrString (some "dogs")) (.ptrString none) = .panic nilDeref ∧
    readValue (.bool true) (.ptrString none) =
      .ret (some (Newf "value was *string, not *string"), .ptrString none) := by
  decide

/-- C9, at the failing input: for a `bool` source and a `*string` destination the mismatch
message is "value was *string, not *string"; it names the destination's type twice and does not
contain the source's type name. -/
theorem mismatch_message_omits_source_type :
    readValue (.bool true) (.ptrString (some "")) =
      .ret (some (Newf "value was *string, not *string"), .ptrString (some "")) ∧
    (Value.bool true).typeName = "bool" ∧
    ¬ ("bool".toList <:+: "value was *string, not *string".toList) := by
  decide

/-! ## Theorems: lookups on the test schema -/

/-- For a nil descriptor the result of `GetOptionByID` is the result of the library lookup on a
nil message. -/
theorem GetOptionByID_nil_node (L : Protoreflect Reg File Opts Msg) (o : OptionReader Reg File)
    (tagID : Int) (r : String) (h : L.TryGetFieldByNumber none tagID = .panic r) :
    (GetOptionByID L o none tagID).1 = .panic r := by
  simp [GetOptionByID, getOptions, h]

/-- C1, at the failing inputs: `getOptions` returns a nil message without error for a nil
descriptor and for a descriptor without options, and `GetOptionByID` / `GetOptionByName` then
call the field lookup on that nil message; with a library whose lookup reads its receiver the
call panics instead of returning `(nil, nil)`. -/
theorem get_on_missing_options_panics :
    (getOptions testLib reader none).1 = (none, none) ∧
    (getOptions testLib reader (some bareDesc)).1 = (none, none) ∧
    (GetOptionByID testLib reader none 5001).1 = .panic nilDeref ∧
    (GetOptionByName testLib reader none "test.msg_string").1 = .panic nilDeref ∧
    (GetOptionByID testLib reader (some bareDesc) 5001).1 = .panic nilDeref ∧
    (GetOptionByName testLib reader (some bareDesc) "test.msg_string").1 = .panic nilDeref := by
  decide

/-- C2, at the failing input: on the test schema `GetOptionByID` / `GetOptionByName` return the
string "dogs" (and the bool `true`) without error, and `ReadOptionByID` / `ReadOptionByName` with
a `new(string)` (`new(bool)`) destination return a mismatch error and leave the destination at
its zero value. -/
theorem read_of_plain_scalar_fails :
    (GetOptionByID testLib reader (some mdesc) 5001).1 = .ret (.string "dogs", none) ∧
    (GetOptionByName testLib reader (some mdesc) "test.msg_string").1 =
      .ret (.string "dogs", none) ∧
    (ReadOptionByID testLib reader (some mdesc) 5001 (.ptrString (some ""))).1 =
      .ret (some (Newf "value was *string, not *string"), .ptrString (some "")) ∧
    (ReadOptionByName testLib reader (some mdesc) "test.msg_string" (.ptrString (some ""))).1 =
      .ret (some (Newf "value was *string, not *string"), .ptrString (some "")) ∧
    (GetOptionByID testLib reader (some mdesc) 5002).1 = .ret (.bool true, none) ∧
    (ReadOptionByID testLib reader (some mdesc) 5002 (.ptrBool (some false))).1 =
      .ret (some (Newf "value was *bool, not *bool"), .ptrBool (some false)) := by
  decide

/-! ## Theorems: the reader's state -/

/-- On an initialized reader `getOptions` leaves the reader as it was. -/
theorem getOptions_of_init (L : Protoreflect Reg File Opts Msg) (o : OptionReader Reg File)
    (node : Option (Descriptor File Opts)) (h : o.init = true) :
    (getOptions L o node).2 = o := by
  cases node with
  | none => rfl
  | some n =>
    simp only [getOptions, h]
    cases n.GetOptions with
    | none => rfl
    | some opts =>
      simp only [Bool.not_true, Bool.false_eq_true, if_false]
      rcases L.AsDynamicMessageWithExtensionRegistry opts o.Registry with ⟨m, _ | e⟩ <;> rfl

/-- A nil descriptor gives `(nil, nil)` and leaves the reader as it was. -/
theorem getOptions_nil (L : Protoreflect Reg File Opts Msg) (o : OptionReader Reg File) :
    getOptions L o none = ((none, none), o) := rfl

/-- On a reader that is not initialized a non-nil descriptor registers its file and sets the
flag, whatever happens to the options afterwards. -/
theorem getOptions_fresh (L : Protoreflect Reg File Opts Msg) (o : OptionReader Reg File)
    (n : Descriptor File Opts) (h : o.init = false) :
    (getOptions L o (some n)).2 =
      ⟨true, L.AddExtensionsFromFileRecursively o.Registry n.GetFile,
        o.registered ++ [n.GetFile]⟩ := by
  simp only [getOptions, h]
  cases n.GetOptions with
  | none => rfl
  | some opts =>
    simp only [Bool.not_false, if_true]
    rcases L.AsDynamicMessageWithExtensionRegistry opts
      (L.AddExtensionsFromFileRecursively o.Registry n.GetFile) with ⟨m, _ | e⟩ <;> rfl

/-- The flag after `getOptions`. -/
theorem getOptions_init (L : Protoreflect Reg File Opts Msg) (o : OptionReader Reg File)
    (node : Option (Descriptor File Opts)) :
    (getOptions L o node).2.init = (o.init || node.isSome) := by
  cases h : o.init with
  | true => rw [getOptions_of_init L o node h]; simp [h]
  | false =>
    cases node with
    | none => simp [getOptions_nil, h]
    | some n => rw [getOptions_fresh L o n h]; simp

/-- A second `getOptions` on the same descriptor repeats the first. -/
theorem getOptions_twice (L : Protoreflect Reg File Opts Msg) (o : OptionReader Reg File)
    (node : Option (Descriptor File Opts)) :
    getOptions L (getOptions L o node).2 node = getOptions L o node := by
  cases node with
  | none => rfl
  | some n =>
    cases h : o.init with
    | true => rw [getOptions_of_init L o (some n) h]
    | false =>
      rw [getOptions_fresh L o n h]
      simp only [getOptions, h, Bool.not_true, Bool.not_false, Bool.false_eq_true, if_false,
        if_true]

theorem GetOptionByID_state (L : Protoreflect Reg File Opts Msg) (o : OptionReader Reg File)
    (node : Option (Descriptor File Opts)) (tagID : Int) :
    (GetOptionByID L o node tagID).2 = (getOptions L o node).2 := by
  unfold GetOptionByID
  rcases getOptions L o node with ⟨⟨m, _ | e⟩, o1⟩
  · simp only
    rcases L.TryGetFieldByNumber m tagID with ⟨v, _ | e⟩ | r <;> rfl
  · rfl

theorem GetOptionByName_state (L : Protoreflect Reg File Opts Msg) (o : OptionReader Reg File)
    (node : Option (Descriptor File Opts)) (tagName : String) :
    (GetOptionByName L o node tagName).2 = (getOptions L o node).2 := by
  unfold GetOptionByName
  rcases getOptions L o node with ⟨⟨m, _ | e⟩, o1⟩
  · simp only
    rcases L.TryGetFieldByName m tagName with ⟨v, _ | e⟩ | r <;> rfl
  · rfl

theorem ReadOptionByID_state (L : Protoreflect Reg File Opts Msg) (o : OptionReader Reg File)
    (node : Option (Descriptor File Opts)) (tagID : Int) (out : Value) :
    (ReadOptionByID L o node tagID out).2 = (getOptions L o node).2 := by
  rw [← GetOptionByID_state L o node tagID]
  unfold ReadOptionByID
  rcases GetOptionByID L o node tagID with ⟨⟨v, _ | e⟩ | r, o1⟩ <;> rfl

theorem ReadOptionByName_state (L : Protoreflect Reg File Opts Msg) (o : OptionReader Reg File)
    (node : Option (Descriptor File Opts)) (tagName : String) (out : Value) :
    (ReadOptionByName L o node tagName out).2 = (getOptions L o node).2 := by
  rw [← GetOptionByName_state L o node tagName]
  unfold ReadOptionByName
  rcases GetOptionByName L o node tagName with ⟨⟨v, _ | e⟩ | r, o1⟩ <;> rfl

/-- Every public operation changes the reader exactly as its `getOptions` call does. -/
theorem step_eq (L : Protoreflect Reg File Opts Msg) (o : OptionReader Reg File)
    (op : Op File Opts) : step L o op = (getOptions L o op.node).2 := by
  cases op <;>
    simp [step, Op.node, GetOptionByID_state, GetOptionByName_state, ReadOptionByID_state,
      ReadOptionByName_state]

/-- An initialized reader is left unchanged by every sequence of operations. -/
theorem run_of_init (L : Protoreflect Reg File Opts Msg) (o : OptionReader Reg File)
    (ops : List (Op File Opts)) (h : o.init = true) : run L o ops = o := by
  induction ops with
  | nil => rfl
  | cons op ops ih => rw [run, step_eq, getOptions_of_init L o op.node h, ih]

/-- From a reader that is not initialized at most one file gets registered. -/
theorem run_registered (L : Protoreflect Reg File Opts Msg) (o : OptionReader Reg File)
    (ops : List (Op File Opts)) (h : o.init = false) :
    (run L o ops).registered.length ≤ o.registered.length + 1 := by
  induction ops generalizing o with
  | nil => simp [run]
  | cons op ops ih =>
    rw [run, step_eq]
    cases hn : op.node with
    | none => rw [getOptions_nil]; exact ih o h
    | some n =>
      rw [run_of_init L _ ops (by rw [getOptions_fresh L o n h]), getOptions_fresh L o n h]
      simp

/-- The flag after a sequence of operations. -/
theorem run_init (L : Protoreflect Reg File Opts Msg) (o : OptionReader Reg File)
    (ops : List (Op File Opts)) :
    (run L o ops).init = (o.init || ops.any (fun op => op.node.isSome)) := by
  induction ops generalizing o with
  | nil => simp [run]
  | cons op ops ih =>
    rw [run, ih, step_eq, getOptions_init, List.any_cons, Bool.or_assoc]

/-- The flag rises once along a sequence if it starts false and some descriptor is non-nil. -/
theorem risingEdges_initTrace (L : Protoreflect Reg File Opts Msg) (o : OptionReader Reg File)
    (ops : List (Op File Opts)) :
    risingEdges o.init (initTrace L o ops) =
      if !o.init && ops.any (fun op => op.node.isSome) then 1 else 0 := by
  induction ops generalizing o with
  | nil => simp [initTrace, risingEdges]
  | cons op ops ih =>
    rw [initTrace, risingEdges, ih, step_eq, getOptions_init, List.any_cons]
    cases o.init <;> cases op.node.isSome <;> simp

/-- C7: a second `GetOptionByID` call with the same descriptor and tag returns the result of
the first (value and error, or the same panic), and on an initialized reader a `GetOptionByID`
call leaves the reader (flag, registry, registered files) as it was. -/
theorem GetOptionByID_repeatable (L : Protoreflect Reg File Opts Msg)
    (o : OptionReader Reg File) (node : Option (Descriptor File Opts)) (tagID : Int) :
    (GetOptionByID L (GetOptionByID L o node tagID).2 node tagID).1 =
      (GetOptionByID L o node tagID).1 ∧
    (o.init = true → (GetOptionByID L o node tagID).2 = o) := by
  constructor
  · rw [GetOptionByID_state]
    simp only [GetOptionByID, getOptions_twice]
  · intro h
    rw [GetOptionByID_state, getOptions_of_init L o node h]

theorem GetOptionByID_repeatable_witness :
    (GetOptionByID testLib (GetOptionByID testLib reader (some mdesc) 5001).2 (some mdesc) 5001).1
      = (GetOptionByID testLib reader (some mdesc) 5001).1 ∧
    (GetOptionByID testLib ⟨true, extProto, [messageProto]⟩ (some fdesc) 5001).2 =
      ⟨true, extProto, [messageProto]⟩ :=
  ⟨(GetOptionByID_repeatable testLib reader (some mdesc) 5001).1,
    (GetOptionByID_repeatable testLib ⟨true, extProto, [messageProto]⟩ (some fdesc) 5001).2 rfl⟩

/-- C8: along every sequence of public operations on a freshly constructed reader the
registration step runs at most once, and a reader whose init flag is true is left unchanged by
every later sequence of operations: the flag stays true and nothing is registered again. -/
theorem registration_at_most_once (L : Protoreflect Reg File Opts Msg)
    (registry : Option Reg) (ops : List (Op File Opts)) :
    (run L (NewOptionReader L registry) ops).registered.length ≤ 1 ∧
    (∀ (o : OptionReader Reg File) (later : List (Op File Opts)), o.init = true →
      run L o later = o) := by
  constructor
  · exact run_registered L (NewOptionReader L registry) ops rfl
  · intro o later h
    exact run_of_init L o later h

theorem registration_at_most_once_witness :
    (run testLib reader [.getByID none 5001, .readByName (some mdesc) "test.msg_bool"
      (.ptrBool (some false)), .getByID (some fdesc) 5001]).registered.length ≤ 1 ∧
    run testLib ⟨true, extProto, [messageProto]⟩
      [.getByName (some fdesc) "test.field_string", .readByID (some strayDesc) 5001 .nil] =
      ⟨true, extProto, [messageProto]⟩ :=
  have h := registration_at_most_once testLib none
    [.getByID none 5001, .readByName (some mdesc) "test.msg_bool" (.ptrBool (some false)),
      .getByID (some fdesc) 5001]
  ⟨h.1, h.2 ⟨true, extProto, [messageProto]⟩
    [.getByName (some fdesc) "test.field_string", .readByID (some strayDesc) 5001 .nil] rfl⟩

/-- With every library: on a reader that is not initialized, a call with a non-nil descriptor
whose raw options the library fails to convert returns the conversion error and leaves the flag
set. -/
theorem getOptions_failed_conversion (L : Protoreflect Reg File Opts Msg)
    (o : OptionReader Reg File) (n : Descriptor File Opts) (opts : Opts) (m : Option Msg)
    (err : GoError) (hinit : o.init = false) (hopts : n.GetOptions = some opts)
    (hconv : L.AsDynamicMessageWithExtensionRegistry opts
      (L.AddExtensionsFromFileRecursively o.Registry n.GetFile) = (m, some err)) :
    (getOptions L o (some n)).1 = (none, some (Wrap err)) ∧
    (getOptions L o (some n)).2.init = true := by
  refine ⟨?_, by rw [getOptions_fresh L o n hinit]⟩
  simp only [getOptions, hinit, hopts, Bool.not_false, if_true, hconv]

/-- C10 as stated fails: on a fresh reader, with no earlier call, a first call on a descriptor
whose raw options the library fails to convert returns the conversion error from `getOptions`
(and so from `GetOptionByID`), and the init flag is true after it. -/
theorem init_set_before_failed_conversion :
    reader.init = false ∧
    (getOptions testLib reader (some unconvertibleDesc)).1 =
      (none, some (Wrap (.lib "cannot convert options"))) ∧
    (GetOptionByID testLib reader (some unconvertibleDesc) 5001).1 =
      .ret (.nil, some (Wrap (.lib "cannot convert options"))) ∧
    (run testLib reader [.getByID (some unconvertibleDesc) 5001]).init = true := by
  decide

/-- C10, amended: after a sequence of operations on a fresh reader the init flag is true
exactly when some operation of the sequence had a non-nil descriptor, whether or not its options
could be resolved; along the sequence the flag changes from false to true once if there is such
an operation and never otherwise. -/
theorem init_flag_tracks_non_nil_descriptor (L : Protoreflect Reg File Opts Msg)
    (registry : Option Reg) (ops : List (Op File Opts)) :
    (run L (NewOptionReader L registry) ops).init = ops.any (fun op => op.node.isSome) ∧
    risingEdges false (initTrace L (NewOptionReader L registry) ops) =
      if ops.any (fun op => op.node.isSome) then 1 else 0 := by
  constructor
  · rw [run_init]; rfl
  · have h := risingEdges_initTrace L (NewOptionReader L registry) ops
    simpa [NewOptionReader] using h

end Options
